import Mathlib

/-!
Verification development for the `StreamableMCPClient` core (src/client.ts) and its
configuration defaults (src/config.ts).

The TypeScript source is shallowly embedded:
* JSON values become the `JSON` inductive; JavaScript field access `o.f` becomes
  `JSON.getField`, and JavaScript truthiness becomes `JSON.truthy`.
* The HTTP layer (`fetch`) is modelled by an oracle `Nat → Except JSError Response`
  giving the outcome of each successive fetch attempt of one request: either a thrown
  error value (`JSError`) or a resolved `Response`.  Following node-fetch, a response
  with any HTTP status (including 5xx) is a *resolved* value, never a thrown one.
* `async`/`await` sequencing becomes ordinary sequencing; elapsed `delay` time and the
  number of fetch attempts are tracked explicitly in the results.
* `onData` callback invocations are collected, in invocation order, as the list of
  JavaScript values passed to the callback (`chunks : List JSON`); a thrown
  `TypeError` on a `null` or `undefined` receiver is modelled explicitly at every
  site where the source can dereference one, so executions can deliver some
  chunks and then fail.
-/

/-- JSON values (the dynamic values flowing through the client). -/
inductive JSON where
  | str (s : String)
  | num (n : Int)
  | bool (b : Bool)
  | null
  | arr (xs : List JSON)
  | obj (fields : List (String × JSON))

/-- JavaScript property access `o.k` for a *non-null* receiver: a field of an
object, `undefined` (`none`) otherwise.  Object keys are unique, so first-match
lookup is exact.  In JavaScript `null.k` throws a TypeError; every dereference
site where the source can receive `null` guards for it explicitly (see
`processToolResponse`, `itemRun`, `listToolsOutcome`, `callToolOutcome`), so
this function is only ever applied to non-null receivers. -/
def JSON.getField : JSON → String → Option JSON
  | .obj fs, k => fs.lookup k
  | _, _ => none

/-- JavaScript truthiness of a JSON value (`""`, `0`, `false`, `null` are falsy;
arrays and objects are always truthy). -/
def JSON.truthy : JSON → Bool
  | .str s => s ≠ ""
  | .num n => n ≠ 0
  | .bool b => b
  | .null => false
  | .arr _ => true
  | .obj _ => true

/-- Truthiness of a possibly-absent value (`undefined` is falsy). -/
def jsTruthyOpt : Option JSON → Bool
  | some v => v.truthy
  | none => false

/-- Whether a JSON value is `null` (the only value whose property access throws
besides `undefined`). -/
def JSON.isNull : JSON → Bool
  | .null => true
  | _ => false

/-- The TypeError message for a property read on `null`. -/
def typeErrorNullMsg (k : String) : String :=
  "Cannot read properties of null (reading \x27" ++ k ++ "\x27)"

/-- The TypeError message for a property read on `undefined`. -/
def typeErrorUndefinedMsg (k : String) : String :=
  "Cannot read properties of undefined (reading \x27" ++ k ++ "\x27)"

/-- JavaScript template-literal display of a JSON value (as in
`${result.error.code}`): numbers in decimal, strings verbatim. -/
def JSON.display : JSON → String
  | .str s => s
  | .num n => toString n
  | .bool b => if b then "true" else "false"
  | .null => "null"
  | .arr _ => ""
  | .obj _ => "[object Object]"

/-- Display of a possibly-absent value: `undefined` prints as "undefined". -/
def displayOpt : Option JSON → String
  | some v => v.display
  | none => "undefined"

/-- Display of `j.f.g` (e.g. `result.error.code`) as a template literal renders it. -/
def fieldChainDisplay (j : JSON) (f g : String) : String :=
  displayOpt ((j.getField f).bind fun v => v.getField g)

/-- `2*n` spaces: the indentation JSON.stringify uses at nesting depth `n` with
indent argument 2. -/
def indentStr (n : Nat) : String := String.mk (List.replicate (2 * n) ' ')

/-- One lowercase hexadecimal digit. -/
def hexDigit (n : Nat) : String :=
  String.singleton (if n < 10 then Char.ofNat (48 + n) else Char.ofNat (87 + n))

/-- JSON string escaping of one character, as JSON.stringify performs it. -/
def escapeChar (c : Char) : String :=
  if c = '"' then "\\\""
  else if c = '\\' then "\\\\"
  else if c = '\n' then "\\n"
  else if c = '\t' then "\\t"
  else if c = '\r' then "\\r"
  else if c.toNat = 8 then "\\b"
  else if c.toNat = 12 then "\\f"
  else if c.toNat < 32 then "\\u00" ++ hexDigit (c.toNat / 16) ++ hexDigit (c.toNat % 16)
  else String.singleton c

/-- A JSON string literal: quoted and escaped. -/
def quoteStr (s : String) : String :=
  "\"" ++ String.join (s.toList.map escapeChar) ++ "\""

mutual

/-- `JSON.stringify(j, null, 2)` at nesting depth `ind`: the pretty-printed
(2-space-indented) serialization used by the normalizer's fallback branch. -/
def stringifyAt : JSON → Nat → String
  | .str s, _ => quoteStr s
  | .num n, _ => toString n
  | .bool b, _ => if b then "true" else "false"
  | .null, _ => "null"
  | .arr [], _ => "[]"
  | .arr (x :: xs), ind =>
      "[\n" ++ String.intercalate ",\n" (stringifyItems (x :: xs) (ind + 1)) ++
        "\n" ++ indentStr ind ++ "]"
  | .obj [], _ => "\x7b\x7d"
  | .obj (kv :: fs), ind =>
      "\x7b\n" ++ String.intercalate ",\n" (stringifyFields (kv :: fs) (ind + 1)) ++
        "\n" ++ indentStr ind ++ "\x7d"

/-- The lines of an array's elements, each prefixed by its indentation. -/
def stringifyItems : List JSON → Nat → List String
  | [], _ => []
  | x :: r, ind => (indentStr ind ++ stringifyAt x ind) :: stringifyItems r ind

/-- The lines of an object's key/value pairs, each prefixed by its indentation. -/
def stringifyFields : List (String × JSON) → Nat → List String
  | [], _ => []
  | kv :: r, ind =>
      (indentStr ind ++ quoteStr kv.1 ++ ": " ++ stringifyAt kv.2 ind) :: stringifyFields r ind

end

/-- `JSON.stringify(j, null, 2)`. -/
def stringify2 (j : JSON) : String := stringifyAt j 0

/-- The loop of `streamText` (src/client.ts lines 245-251):
`for (let i = 0; i < text.length; i += chunkSize) onData(text.slice(i, i + chunkSize))`,
collected as the list of emitted chunks, over the remaining suffix of the text.
The first argument is fuel bounding the number of iterations; every call supplies
fuel equal to the suffix length, which suffices because each iteration drops at
least one character (`chunkSize` is always the default 50 in the source). -/
def chunkListGo {α : Type} (chunkSize : Nat) : Nat → List α → List (List α)
  | _, [] => []
  | 0, _ :: _ => []
  | fuel + 1, c :: cs =>
      ((c :: cs).take chunkSize) :: chunkListGo chunkSize fuel ((c :: cs).drop chunkSize)

/-- `streamText(text, onData, chunkSize)`: the chunks delivered to `onData`,
in delivery order.  (The 10ms inter-chunk pacing delay does not affect which
chunks are delivered and is not modelled.) -/
def streamText (text : String) (chunkSize : Nat := 50) : List String :=
  (chunkListGo chunkSize text.toList.length text.toList).map String.mk

/-- The guard `item.type === "text" && item.text` of `processToolResponse`'s
content loop: strict equality of the `type` field with the string "text",
then truthiness of the `text` field. -/
def itemIsText (item : JSON) : Bool :=
  (match item.getField "type" with
   | some (.str t) => t == "text"
   | _ => false) &&
  jsTruthyOpt (item.getField "text")

/-- The `streamText` loop applied to an arbitrary truthy JavaScript value
`text`: the values passed to `onData`, and an optional thrown error.
A string delivers its 50-character string slices.  An array has `.length` and
`.slice`, so the loop runs and delivers 50-element *array* slices.  A number or
boolean has no `.length` (`i < undefined` is false), so the loop body never
runs.  An object enters the loop only if it has a positive numeric `length`
property, and then throws because objects have no `.slice` (a non-numeric
`length` property, which JavaScript would compare after number coercion, is
modelled as not entering the loop; no statement below relies on that corner —
all payloads in the theorems carry string text fields). -/
def streamJSRun : JSON → List JSON × Option String
  | .str s => ((streamText s).map JSON.str, none)
  | .arr xs => ((chunkListGo 50 xs.length xs).map JSON.arr, none)
  | .obj fs =>
      match fs.lookup "length" with
      | some (.num n) =>
          if 0 < n then ([], some "text.slice is not a function") else ([], none)
      | _ => ([], none)
  | _ => ([], none)

/-- `streamJSRun` on a possibly-absent value (`undefined` has no `.length`). -/
def streamJSRunOpt : Option JSON → List JSON × Option String
  | some v => streamJSRun v
  | none => ([], none)

/-- One iteration of `processToolResponse`'s content loop:
`if (item.type === "text" && item.text) await this.streamText(item.text, onData)`.
A `null` item throws a TypeError at `item.type` before delivering anything. -/
def itemRun (item : JSON) : List JSON × Option String :=
  match item with
  | .null => ([], some (typeErrorNullMsg "type"))
  | _ =>
      if itemIsText item then streamJSRunOpt (item.getField "text")
      else ([], none)

/-- The content loop over all items: chunks accumulate left to right and a
thrown error aborts the remaining iterations, keeping the chunks already
delivered. -/
def runItems : List JSON → List JSON × Option String
  | [] => ([], none)
  | item :: rest =>
      let r := itemRun item
      match r.2 with
      | some e => (r.1, some e)
      | none =>
          let rest' := runItems rest
          (r.1 ++ rest'.1, rest'.2)

/-- The test `result.content && Array.isArray(result.content)` on a non-null
receiver: `some items` iff the `content` field is present and an array
(arrays are always truthy, so the truthiness conjunct is redundant). -/
def contentItems (result : JSON) : Option (List JSON) :=
  match result.getField "content" with
  | some (.arr xs) => some xs
  | _ => none

/-- `processToolResponse(result, onData)` (src/client.ts lines 230-243): the
values delivered to `onData` in order, and the thrown error if the execution
fails.  A `null` result throws at `result.content` before delivering anything;
otherwise the three-way shape selection runs (content array loop / truthy
`result.text` / pretty-printed JSON fallback). -/
def processToolResponse (result : JSON) : List JSON × Option String :=
  match result with
  | .null => ([], some (typeErrorNullMsg "content"))
  | _ =>
      match contentItems result with
      | some items => runItems items
      | none =>
          match result.getField "text" with
          | some v =>
              if v.truthy then streamJSRun v
              else ((streamText (stringify2 result)).map JSON.str, none)
          | none => ((streamText (stringify2 result)).map JSON.str, none)

/-- Specification-side reading of one content item: the `text` field of an item
whose `type` is "text" (both fields strings), and `""` otherwise.  Used to state
what the concatenated streamed output of the content branch is. -/
def itemTextStr (item : JSON) : String :=
  match item.getField "type", item.getField "text" with
  | some (.str ty), some (.str t) => if ty = "text" then t else ""
  | _, _ => ""

/-- Specification-side well-formedness of one content item: not `null` (so no
TypeError at `item.type`) and its `text` field, when present, is a string (the
shapes the specification's content items take). -/
def itemWF (item : JSON) : Bool :=
  (match item with
   | .null => false
   | _ => true) &&
  (match item.getField "text" with
   | some (.str _) => true
   | some _ => false
   | none => true)

/-- The text of a delivered chunk value (non-string chunks read as `""`). -/
def chunkText : JSON → String
  | .str s => s
  | _ => ""

/-- A JavaScript error value as `isRetryableError` inspects it: its `name`,
`code` and `message` properties and, when present, the `status` of an attached
`response` property. -/
structure JSError where
  name : String := ""
  code : String := ""
  message : String := ""
  responseStatus : Option Nat := none
deriving DecidableEq

/-- `isRetryableError(error)` (src/client.ts lines 122-129). -/
def isRetryableError (e : JSError) : Bool :=
  e.name == "AbortError" ||
  e.code == "ECONNRESET" ||
  e.code == "ETIMEDOUT" ||
  (match e.responseStatus with
   | some s => 500 ≤ s
   | none => false)

/-- A resolved HTTP response as the client observes it.  `body` is the response
body text (`none` models a `null` body stream, which `callToolStream` rejects);
`bodyJson` is the external JSON parse of that text (`none` models a parse
failure of `response.json()` / `JSON.parse(buffer)`). -/
structure Response where
  status : Nat
  statusText : String := ""
  body : Option String := some ""
  bodyJson : Option JSON := none

/-- `response.ok` of node-fetch: status in [200, 300). -/
def Response.ok (r : Response) : Bool := 200 ≤ r.status && r.status < 300

/-- `response.text()`: the body text (a `null` body yields `""`). -/
def Response.textOf (r : Response) : String := r.body.getD ""

/-- Outcome of `makeRequest`: the final result, the number of fetch attempts
performed, and the total backoff delay awaited (milliseconds). -/
structure MRResult where
  result : Except JSError Response
  attempts : Nat
  totalDelayMs : Nat

/-- The recursion of `makeRequest` (src/client.ts lines 100-120), with the attempt
outcomes supplied by `oracle` (attempt number ↦ thrown error or resolved response).
The first `Nat` argument is fuel bounding the recursion depth; the retry guard
`retryCount < maxRetries` means at most `maxRetries` recursive calls happen from
`retryCount = 0`, so the fuel `maxRetries` supplied by `makeRequest` makes the
fuel-exhaustion branch unreachable. -/
def makeRequestGo (maxRetries : Nat) (oracle : Nat → Except JSError Response) :
    Nat → Nat → MRResult
  | gas, retryCount =>
    match oracle retryCount with
    | .ok response => ⟨.ok response, 1, 0⟩
    | .error e =>
      if retryCount < maxRetries ∧ isRetryableError e = true then
        match gas with
        | 0 => ⟨.error e, 1, 0⟩
        | gas' + 1 =>
          let rest := makeRequestGo maxRetries oracle gas' (retryCount + 1)
          ⟨rest.result, rest.attempts + 1, 2 ^ retryCount * 1000 + rest.totalDelayMs⟩
      else ⟨.error e, 1, 0⟩

/-- `makeRequest(url, payload)` with `retryCount = 0`: retries (with `2^retryCount`
seconds of backoff before each) while the attempt *throws* a retryable error and
`retryCount < maxRetries`; a *resolved* response — whatever its status — is
returned as-is. -/
def makeRequest (maxRetries : Nat) (oracle : Nat → Except JSError Response) : MRResult :=
  makeRequestGo maxRetries oracle maxRetries 0

/-- Options accepted by the constructor; `none` models an absent property. -/
structure ClientOptions where
  timeout : Option Nat := none
  maxRetries : Option Nat := none

/-- JavaScript `v || d` for an optional numeric property: absent and `0` are
falsy, so both fall back to the default. -/
def jsOr (v : Option Nat) (d : Nat) : Nat :=
  match v with
  | some n => if n = 0 then d else n
  | none => d

/-- The state of a `StreamableMCPClient` instance. -/
structure Client where
  servers : List (String × String)
  requestId : Nat
  timeout : Nat
  maxRetries : Nat

/-- The constructor (src/client.ts lines 91-98): `this.requestId = 1`,
`this.timeout = options.timeout || 30000`,
`this.maxRetries = options.maxRetries || 3`. -/
def mkClient (servers : List (String × String)) (options : ClientOptions := {}) : Client :=
  { servers := servers
    requestId := 1
    timeout := jsOr options.timeout 30000
    maxRetries := jsOr options.maxRetries 3 }

/-- `this.servers[serverName]`: registry lookup (keys are unique). -/
def lookupServer (servers : List (String × String)) (name : String) : Option String :=
  servers.lookup name

/-- The message `Server '<name>' not found. Available servers: <keys joined ", ">`. -/
def serverNotFoundMsg (servers : List (String × String)) (name : String) : String :=
  "Server \x27" ++ name ++ "\x27 not found. Available servers: " ++
    String.intercalate ", " (servers.map Prod.fst)

/-- `validateServerName(serverName)` (src/client.ts lines 135-139): throws iff
`this.servers[serverName]` is falsy — the name is absent *or* maps to `""`. -/
def validateServerName (servers : List (String × String)) (name : String) :
    Except String Unit :=
  match lookupServer servers name with
  | some url => if url = "" then .error (serverNotFoundMsg servers name) else .ok ()
  | none => .error (serverNotFoundMsg servers name)

/-- Whether an `Except` is a success. -/
def isOkB {ε α : Type} : Except ε α → Bool
  | .ok _ => true
  | .error _ => false

/-- Whether an `Except` is an error. -/
def isErrB {ε α : Type} : Except ε α → Bool
  | .ok _ => false
  | .error _ => true

/-- The message of a failed `Except` (and `""` on success). -/
def errStrOf {α : Type} : Except String α → String
  | .error m => m
  | .ok _ => ""

/-- `${error.message || error}` for a thrown error value: the message, or (for an
`Error` with empty message) its string conversion, which is its name. -/
def errMsgOf (e : JSError) : String := if e.message = "" then e.name else e.message

/-- `HTTP ${status}: ${statusText}. Body: ${body}`. -/
def httpErrMsg (r : Response) : String :=
  "HTTP " ++ toString r.status ++ ": " ++ r.statusText ++ ". Body: " ++ r.textOf

/-- Placeholder for the runtime-generated message of a JSON parse failure
(`response.json()` rejection / `JSON.parse` exception); its exact text is
produced by the JavaScript runtime, not by this repository's code. -/
def jsParseErrorText : String := "Unexpected token"

/-- `JSON-RPC Error (${result.error.code}): ${result.error.message}`. -/
def rpcErrMsg (result : JSON) : String :=
  "JSON-RPC Error (" ++ fieldChainDisplay result "error" "code" ++ "): " ++
    fieldChainDisplay result "error" "message"

/-- `Tool Error (${result.error.code}): ${result.error.message}`. -/
def toolErrMsg (result : JSON) : String :=
  "Tool Error (" ++ fieldChainDisplay result "error" "code" ++ "): " ++
    fieldChainDisplay result "error" "message"

/-- `Failed to fetch tools from ${serverName} (${serverUrl}): ${msg}`. -/
def listToolsWrap (serverName serverUrl msg : String) : String :=
  "Failed to fetch tools from " ++ serverName ++ " (" ++ serverUrl ++ "): " ++ msg

/-- `Failed to call tool '${tool}' on ${serverName}: ${msg}`. -/
def callToolWrap (tool serverName msg : String) : String :=
  "Failed to call tool \x27" ++ tool ++ "\x27 on " ++ serverName ++ ": " ++ msg

/-- `Invalid JSON response: ${parseError.message}. Response: ${buffer.substring(0, 200)}...` -/
def invalidJsonMsg (buffer : String) : String :=
  "Invalid JSON response: " ++ jsParseErrorText ++ ". Response: " ++ buffer.take 200 ++ "..."

/-- `result.result?.tools || []` of `listTools`. -/
def toolsOf (result : JSON) : JSON :=
  match (result.getField "result").bind (fun v => v.getField "tools") with
  | some t => if t.truthy then t else JSON.arr []
  | none => JSON.arr []

/-- Observable outcome of one client operation: its result, the number of fetch
attempts made, the JSON-RPC ids of the requests it constructed, and the chunks
delivered to the `onData` callback. -/
structure OpResult (α : Type) where
  result : Except String α
  fetchCalls : Nat
  sentIds : List Nat
  chunks : List JSON

/-- The body of `listTools`'s try block after `makeRequest` resolves (src/client.ts
lines 155-168), with the outer catch's wrapping applied to each failure:
the HTTP-status check, `response.json()`, the JSON-RPC error-envelope check, and
the extraction `result.result?.tools || []`. -/
def listToolsOutcome (serverName serverUrl : String) (mr : MRResult) :
    Except String JSON :=
  match mr.result with
  | .error e => .error (listToolsWrap serverName serverUrl (errMsgOf e))
  | .ok response =>
    if response.ok = false then
      .error (listToolsWrap serverName serverUrl (httpErrMsg response))
    else
      match response.bodyJson with
      | none => .error (listToolsWrap serverName serverUrl jsParseErrorText)
      | some result =>
        if result.isNull then
          .error (listToolsWrap serverName serverUrl (typeErrorNullMsg "error"))
        else if jsTruthyOpt (result.getField "error") then
          .error (listToolsWrap serverName serverUrl (rpcErrMsg result))
        else
          .ok (toolsOf result)

/-- `listTools(serverName)` (src/client.ts lines 141-172), returning the outcome
and the updated client state.  Validation happens before the request id is
consumed; every later failure is wrapped by the outer catch. -/
def listTools (c : Client) (serverName : String)
    (oracle : Nat → Except JSError Response) : OpResult JSON × Client :=
  match validateServerName c.servers serverName with
  | .error msg => (⟨.error msg, 0, [], []⟩, c)
  | .ok _ =>
    let serverUrl := (lookupServer c.servers serverName).getD ""
    let id := c.requestId
    let c' : Client := { c with requestId := c.requestId + 1 }
    let mr := makeRequest c.maxRetries oracle
    (⟨listToolsOutcome serverName serverUrl mr, mr.attempts, [id], []⟩, c')

/-- The body of `callToolStream`'s try block after `makeRequest` resolves
(src/client.ts lines 196-223), with the outer catch's wrapping applied to each
failure: the HTTP-status check, the body-presence check, buffering and
`JSON.parse`, the TypeError on a `null` parsed body at `result.error`, the
error-envelope check, the TypeError on an absent `result` field when
`processToolResponse` reads `.content` off `undefined`, then
`processToolResponse(result.result)` — whose own thrown error is wrapped too,
keeping the chunks it delivered before throwing.  Returns the operation result
and the values delivered to `onData`. -/
def callToolOutcome (serverName tool : String) (mr : MRResult) :
    Except String Unit × List JSON :=
  match mr.result with
  | .error e => (.error (callToolWrap tool serverName (errMsgOf e)), [])
  | .ok response =>
    if response.ok = false then
      (.error (callToolWrap tool serverName (httpErrMsg response)), [])
    else
      match response.body with
      | none => (.error (callToolWrap tool serverName "No response body from server"), [])
      | some buffer =>
        match response.bodyJson with
        | none => (.error (callToolWrap tool serverName (invalidJsonMsg buffer)), [])
        | some result =>
          if result.isNull then
            (.error (callToolWrap tool serverName (typeErrorNullMsg "error")), [])
          else if jsTruthyOpt (result.getField "error") then
            (.error (callToolWrap tool serverName (toolErrMsg result)), [])
          else
            match result.getField "result" with
            | none =>
                (.error (callToolWrap tool serverName (typeErrorUndefinedMsg "content")), [])
            | some payload =>
                let run := processToolResponse payload
                match run.2 with
                | some e => (.error (callToolWrap tool serverName e), run.1)
                | none => (.ok (), run.1)

/-- `callToolStream(serverName, tool, args, onData)` (src/client.ts lines 174-228),
returning the outcome (with the delivered chunks) and the updated client state.
`args` only flows into the request payload, which the model does not observe. -/
def callToolStream (c : Client) (serverName tool : String) (_args : JSON)
    (oracle : Nat → Except JSError Response) : OpResult Unit × Client :=
  match validateServerName c.servers serverName with
  | .error msg => (⟨.error msg, 0, [], []⟩, c)
  | .ok _ =>
    let id := c.requestId
    let c' : Client := { c with requestId := c.requestId + 1 }
    let mr := makeRequest c.maxRetries oracle
    let out := callToolOutcome serverName tool mr
    (⟨out.1, mr.attempts, [id], out.2⟩, c')

/-- One public operation of the client (for stating the request-id invariant). -/
inductive Op where
  | listToolsOp (serverName : String)
  | callToolStreamOp (serverName tool : String) (args : JSON)

/-- The server name an operation targets. -/
def Op.serverNameOf : Op → String
  | .listToolsOp n => n
  | .callToolStreamOp n _ _ => n

/-- The ids sent by one operation, together with the updated client. -/
def opSentIds (c : Client) : Op × (Nat → Except JSError Response) → List Nat × Client
  | (.listToolsOp n, oracle) =>
      let r := listTools c n oracle
      (r.1.sentIds, r.2)
  | (.callToolStreamOp n t a, oracle) =>
      let r := callToolStream c n t a oracle
      (r.1.sentIds, r.2)

/-- The JSON-RPC ids sent across a sequence of operations, in order. -/
def runOps (c : Client) : List (Op × (Nat → Except JSError Response)) → List Nat
  | [] => []
  | p :: rest =>
    let r := opSentIds c p
    r.1 ++ runOps r.2 rest

/-- The number of operations in a sequence that pass server-name validation
(each such operation constructs exactly one request). -/
def countValid (servers : List (String × String))
    (ops : List (Op × (Nat → Except JSError Response))) : Nat :=
  ops.countP fun p => isOkB (validateServerName servers p.1.serverNameOf)

/-! ### Helper lemmas: chunking -/

lemma chunkListGo_flatten (n : Nat) (hn : n ≠ 0) :
    ∀ fuel (cs : List Char), cs.length ≤ fuel → (chunkListGo n fuel cs).flatten = cs := by
  intro fuel
  induction fuel with
  | zero =>
    intro cs h
    cases cs with
    | nil => simp [chunkListGo]
    | cons c cs' => simp at h
  | succ f ih =>
    intro cs h
    cases cs with
    | nil => simp [chunkListGo]
    | cons c cs' =>
      simp only [chunkListGo, List.flatten_cons]
      rw [ih ((c :: cs').drop n) ?hlen]
      · exact List.take_append_drop n (c :: cs')
      · rw [List.length_drop]
        simp only [List.length_cons] at h ⊢
        omega

lemma chunkListGo_length (n : Nat) (hn : n ≠ 0) :
    ∀ fuel (cs : List Char), cs.length ≤ fuel →
      (chunkListGo n fuel cs).length = (cs.length + n - 1) / n := by
  intro fuel
  induction fuel with
  | zero =>
    intro cs h
    cases cs with
    | nil =>
      simp only [chunkListGo, List.length_nil]
      exact (Nat.div_eq_of_lt (by omega)).symm
    | cons c cs' => simp at h
  | succ f ih =>
    intro cs h
    cases cs with
    | nil =>
      simp only [chunkListGo, List.length_nil]
      exact (Nat.div_eq_of_lt (by omega)).symm
    | cons c cs' =>
      simp only [chunkListGo, List.length_cons]
      rw [ih ((c :: cs').drop n)
            (by rw [List.length_drop]; simp only [List.length_cons] at h ⊢; omega)]
      rw [List.length_drop]
      simp only [List.length_cons]
      have h2 : cs'.length + 1 + n - 1 = cs'.length + n := by omega
      rw [h2, Nat.add_div_right _ (by omega)]
      have : (cs'.length + 1 - n + n - 1) / n = cs'.length / n := by
        rcases le_or_lt n (cs'.length + 1) with hc | hc
        · have h3 : cs'.length + 1 - n + n - 1 = cs'.length := by omega
          rw [h3]
        · have h3 : cs'.length + 1 - n = 0 := by omega
          rw [h3, Nat.div_eq_of_lt (by omega), Nat.div_eq_of_lt (by omega)]
      omega

lemma chunkListGo_mem (n : Nat) (hn : n ≠ 0) :
    ∀ fuel (cs : List Char), cs.length ≤ fuel →
      ∀ l ∈ chunkListGo n fuel cs, l ≠ [] ∧ l.length ≤ n := by
  intro fuel
  induction fuel with
  | zero =>
    intro cs h l hl
    cases cs with
    | nil => simp [chunkListGo] at hl
    | cons c cs' => simp at h
  | succ f ih =>
    intro cs h l hl
    cases cs with
    | nil => simp [chunkListGo] at hl
    | cons c cs' =>
      simp only [chunkListGo, List.mem_cons] at hl
      rcases hl with rfl | hl
      · obtain ⟨m, rfl⟩ := Nat.exists_eq_succ_of_ne_zero hn
        refine ⟨by simp, ?_⟩
        rw [List.length_take]
        omega
      · exact ih ((c :: cs').drop n)
          (by rw [List.length_drop]; simp only [List.length_cons] at h ⊢; omega) l hl

lemma chunkListGo_lens (n : Nat) (hn : n ≠ 0) :
    ∀ fuel (cs : List Char), cs.length ≤ fuel →
      ∀ i, i + 1 < (chunkListGo n fuel cs).length →
        ((chunkListGo n fuel cs).map List.length).getD i 0 = n := by
  intro fuel
  induction fuel with
  | zero =>
    intro cs h i hi
    cases cs with
    | nil => simp [chunkListGo] at hi
    | cons c cs' => simp at h
  | succ f ih =>
    intro cs h i hi
    cases cs with
    | nil => simp [chunkListGo] at hi
    | cons c cs' =>
      simp only [chunkListGo, List.length_cons, List.map_cons] at hi ⊢
      cases i with
      | zero =>
        have hrest : chunkListGo n f ((c :: cs').drop n) ≠ [] := by
          intro hnil
          rw [hnil] at hi
          simp at hi
        have hdrop : (c :: cs').drop n ≠ [] := by
          intro hnil
          exact hrest (by rw [hnil]; simp [chunkListGo])
        have hlen : n < (c :: cs').length := by
          by_contra hle
          exact hdrop (List.drop_eq_nil_of_le (by omega))
        rw [List.getD_cons_zero, List.length_take]
        simp only [List.length_cons] at hlen ⊢
        omega
      | succ i' =>
        rw [List.getD_cons_succ]
        have hd : ((c :: cs').drop n).length ≤ f := by
          rw [List.length_drop]
          simp only [List.length_cons] at h ⊢
          omega
        have := ih ((c :: cs').drop n) hd i' (by omega)
        simpa using this

/-! ### Helper lemmas: strings -/

lemma string_toList_inj {a b : String} (h : a.toList = b.toList) : a = b := by
  cases a with
  | mk da =>
    cases b with
    | mk db => exact congrArg String.mk h

lemma stringJoin_toList :
    ∀ l : List String, (String.join l).toList = (l.map String.toList).flatten := by
  have aux : ∀ (l : List String) (acc : List Char),
      (List.foldl (fun r s => r ++ s) (String.mk acc) l).toList =
        acc ++ (l.map String.toList).flatten := by
    intro l
    induction l with
    | nil => intro acc; simp
    | cons s rest ih =>
      intro acc
      simp only [List.foldl_cons, List.map_cons, List.flatten_cons]
      have h1 : String.mk acc ++ s = String.mk (acc ++ s.toList) := by
        cases s with
        | mk ds => rfl
      rw [h1, ih (acc ++ s.toList), List.append_assoc]
  intro l
  have h0 : ("" : String) = String.mk [] := rfl
  show (List.foldl (fun r s => r ++ s) "" l).toList = _
  rw [h0, aux l []]
  rfl

lemma stringJoin_append (l1 l2 : List String) :
    String.join (l1 ++ l2) = String.join l1 ++ String.join l2 := by
  apply string_toList_inj
  have happ : ∀ a b : String, (a ++ b).toList = a.toList ++ b.toList := by
    intro a b
    cases a
    cases b
    rfl
  rw [happ, stringJoin_toList, stringJoin_toList, stringJoin_toList, List.map_append,
    List.flatten_append]

lemma string_toList_append (a b : String) : (a ++ b).toList = a.toList ++ b.toList := by
  cases a
  cases b
  rfl

lemma stringJoin_cons (s : String) (l : List String) :
    String.join (s :: l) = s ++ String.join l := by
  apply string_toList_inj
  rw [stringJoin_toList, string_toList_append, stringJoin_toList]
  simp

lemma stringJoin_map_mk (l : List (List Char)) :
    String.join (l.map String.mk) = String.mk l.flatten := by
  apply string_toList_inj
  rw [stringJoin_toList, List.map_map]
  have : (String.toList ∘ String.mk) = id := rfl
  rw [this, List.map_id]
  rfl

lemma streamText_join (s : String) : String.join (streamText s) = s := by
  unfold streamText
  rw [stringJoin_map_mk, chunkListGo_flatten 50 (by omega) _ _ (Nat.le_refl _)]
  cases s
  rfl

/-! ### Helper lemmas: the normalizer -/

lemma streamText_empty : streamText "" = [] := rfl

lemma isNull_false_of_getField (j : JSON) (k : String) (v : JSON)
    (h : j.getField k = some v) : j.isNull = false := by
  cases j <;> simp_all [JSON.getField, JSON.isNull]

lemma itemRun_wf (item : JSON) (hwf : itemWF item = true) :
    itemRun item = ((streamText (itemTextStr item)).map JSON.str, none) := by
  cases item with
  | null => simp [itemWF] at hwf
  | str s =>
    simp [itemRun, itemIsText, itemTextStr, JSON.getField, jsTruthyOpt, streamText_empty]
  | num n =>
    simp [itemRun, itemIsText, itemTextStr, JSON.getField, jsTruthyOpt, streamText_empty]
  | bool b =>
    simp [itemRun, itemIsText, itemTextStr, JSON.getField, jsTruthyOpt, streamText_empty]
  | arr xs =>
    simp [itemRun, itemIsText, itemTextStr, JSON.getField, jsTruthyOpt, streamText_empty]
  | obj fs =>
    simp only [itemWF, Bool.and_eq_true] at hwf
    unfold itemRun itemIsText itemTextStr
    rcases hty : (JSON.obj fs).getField "type" with _ | vty
    · simp [jsTruthyOpt, streamText_empty]
    · rcases htx : (JSON.obj fs).getField "text" with _ | vtx
      · cases vty <;> simp [jsTruthyOpt, streamText_empty]
      · rw [htx] at hwf
        cases vty <;> cases vtx <;>
            simp_all [jsTruthyOpt, JSON.truthy, streamJSRunOpt, streamJSRun,
              streamText_empty, beq_iff_eq]
        case str.str ty t =>
          by_cases hteq : ty = "text" <;> by_cases ht0 : t = "" <;>
            simp_all [streamJSRunOpt, streamJSRun, streamText_empty]

lemma runItems_wf (items : List JSON) (hwf : ∀ it ∈ items, itemWF it = true) :
    runItems items =
      ((items.map fun it => (streamText (itemTextStr it)).map JSON.str).flatten, none) := by
  induction items with
  | nil => rfl
  | cons a rest ih =>
    simp only [runItems]
    rw [itemRun_wf a (hwf a (by simp))]
    simp only []
    rw [ih (fun it hit => hwf it (by simp [hit]))]
    simp [List.map_cons, List.flatten_cons]

lemma processToolResponse_of_content (p : JSON) (items : List JSON)
    (hc : contentItems p = some items) :
    processToolResponse p = runItems items := by
  cases p with
  | null => simp [contentItems, JSON.getField] at hc
  | str s => simp [contentItems, JSON.getField] at hc
  | num n => simp [contentItems, JSON.getField] at hc
  | bool b => simp [contentItems, JSON.getField] at hc
  | arr xs => simp [contentItems, JSON.getField] at hc
  | obj fs =>
    simp only [processToolResponse]
    rw [hc]

lemma joinStr_per_item (items : List JSON) :
    String.join
        (((items.map fun it => (streamText (itemTextStr it)).map JSON.str).flatten).map
          chunkText) =
      String.join (items.map itemTextStr) := by
  induction items with
  | nil => rfl
  | cons a rest ih =>
    simp only [List.map_cons, List.flatten_cons, List.map_append]
    rw [stringJoin_append, ih, stringJoin_cons]
    congr 1
    rw [List.map_map]
    have hcomp : (chunkText ∘ JSON.str) = id := rfl
    rw [hcomp, List.map_id, streamText_join]

/-! ### Helper lemmas: retries -/

lemma makeRequestGo_of_ok (m : Nat) (oracle : Nat → Except JSError Response)
    (gas rc : Nat) (r : Response) (h : oracle rc = .ok r) :
    makeRequestGo m oracle gas rc = ⟨.ok r, 1, 0⟩ := by
  rw [makeRequestGo.eq_1, h]

lemma sum_delay_shift (rc k : Nat) :
    2 ^ rc * 1000 + ∑ i in Finset.range k, 2 ^ (rc + 1 + i) * 1000 =
      ∑ i in Finset.range (k + 1), 2 ^ (rc + i) * 1000 := by
  induction k with
  | zero => simp
  | succ k ih =>
    conv_lhs => rw [Finset.sum_range_succ]
    rw [← Nat.add_assoc, ih]
    conv_rhs => rw [Finset.sum_range_succ]
    rw [show rc + 1 + k = rc + (k + 1) by omega]

lemma makeRequestGo_succeeds (m : Nat) (oracle : Nat → Except JSError Response)
    (e : Nat → JSError) (r : Response) :
    ∀ (k gas rc : Nat), k ≤ gas → rc + k ≤ m →
      (∀ i, i < k →
        oracle (rc + i) = .error (e (rc + i)) ∧ isRetryableError (e (rc + i)) = true) →
      oracle (rc + k) = .ok r →
      makeRequestGo m oracle gas rc =
        ⟨.ok r, k + 1, ∑ i in Finset.range k, 2 ^ (rc + i) * 1000⟩ := by
  intro k
  induction k with
  | zero =>
    intro gas rc _ _ _ hsucc
    rw [Finset.range_zero, Finset.sum_empty]
    exact makeRequestGo_of_ok m oracle gas rc r (by simpa using hsucc)
  | succ k ih =>
    intro gas rc hgas hm hfail hsucc
    have h0 := hfail 0 (by omega)
    rw [Nat.add_zero] at h0
    obtain ⟨hor, hretry⟩ := h0
    cases gas with
    | zero => omega
    | succ g =>
      rw [makeRequestGo.eq_1, hor]
      simp only []
      rw [if_pos ⟨by omega, hretry⟩]
      have hfail' : ∀ i, i < k →
          oracle (rc + 1 + i) = .error (e (rc + 1 + i)) ∧
            isRetryableError (e (rc + 1 + i)) = true := by
        intro i hi
        have := hfail (i + 1) (by omega)
        rwa [show rc + (i + 1) = rc + 1 + i by omega] at this
      have hsucc' : oracle (rc + 1 + k) = .ok r := by
        rwa [show rc + (k + 1) = rc + 1 + k by omega] at hsucc
      rw [ih g (rc + 1) (by omega) (by omega) hfail' hsucc']
      simp only [MRResult.mk.injEq]
      refine ⟨trivial, trivial, ?_⟩
      exact sum_delay_shift rc k

lemma makeRequestGo_exhausts (m : Nat) (oracle : Nat → Except JSError Response)
    (e : Nat → JSError)
    (hfail : ∀ i, i ≤ m → oracle i = .error (e i) ∧ isRetryableError (e i) = true) :
    ∀ (gas rc : Nat), m - rc ≤ gas → rc ≤ m →
      makeRequestGo m oracle gas rc =
        ⟨.error (e m), m - rc + 1, ∑ i in Finset.range (m - rc), 2 ^ (rc + i) * 1000⟩ := by
  intro gas
  induction gas with
  | zero =>
    intro rc hgas hrc
    have hrm : rc = m := by omega
    subst hrm
    obtain ⟨hor, _⟩ := hfail rc le_rfl
    rw [makeRequestGo.eq_1, hor]
    simp only []
    rw [if_neg (by omega)]
    simp [Nat.sub_self]
  | succ g ih =>
    intro rc hgas hrc
    rcases eq_or_lt_of_le hrc with heq | hlt
    · subst heq
      obtain ⟨hor, _⟩ := hfail rc le_rfl
      rw [makeRequestGo.eq_1, hor]
      simp only []
      rw [if_neg (by omega)]
      simp [Nat.sub_self]
    · obtain ⟨hor, hretry⟩ := hfail rc (le_of_lt hlt)
      rw [makeRequestGo.eq_1, hor]
      simp only []
      rw [if_pos ⟨hlt, hretry⟩]
      rw [ih (rc + 1) (by omega) (by omega)]
      simp only [MRResult.mk.injEq]
      refine ⟨trivial, by omega, ?_⟩
      rw [show m - rc = (m - (rc + 1)) + 1 by omega]
      exact sum_delay_shift rc (m - (rc + 1))

/-! ### Helper lemmas: operations and request ids -/

lemma opSentIds_eq (c : Client) (p : Op × (Nat → Except JSError Response)) :
    opSentIds c p =
      if isOkB (validateServerName c.servers p.1.serverNameOf) = true then
        ([c.requestId], { c with requestId := c.requestId + 1 })
      else ([], c) := by
  obtain ⟨op, oracle⟩ := p
  cases op with
  | listToolsOp n =>
    cases hv : validateServerName c.servers n with
    | error msg => simp [opSentIds, listTools, hv, isOkB, Op.serverNameOf]
    | ok u =>
      cases u
      simp [opSentIds, listTools, hv, isOkB, Op.serverNameOf]
  | callToolStreamOp n t a =>
    cases hv : validateServerName c.servers n with
    | error msg => simp [opSentIds, callToolStream, hv, isOkB, Op.serverNameOf]
    | ok u =>
      cases u
      simp [opSentIds, callToolStream, hv, isOkB, Op.serverNameOf]

lemma runOps_eq :
    ∀ (ops : List (Op × (Nat → Except JSError Response))) (c : Client),
      runOps c ops = List.range' c.requestId (countValid c.servers ops) := by
  intro ops
  induction ops with
  | nil => intro c; rfl
  | cons p rest ih =>
    intro c
    simp only [runOps, opSentIds_eq]
    by_cases hv : isOkB (validateServerName c.servers p.1.serverNameOf) = true
    · rw [if_pos hv, ih]
      have hc : countValid c.servers (p :: rest) = countValid c.servers rest + 1 := by
        simp [countValid, List.countP_cons, hv]
      rw [hc, List.range'_succ]
      simp
    · rw [if_neg hv, ih]
      have hc : countValid c.servers (p :: rest) = countValid c.servers rest := by
        simp only [countValid, List.countP_cons]
        simp [Bool.not_eq_true] at hv
        simp [hv]
      rw [hc]
      simp


/-! ### Helper lemmas: more string facts and shared steps -/

lemma validate_ok_of_lookup (servers : List (String × String)) (name url : String)
    (hl : lookupServer servers name = some url) (hu : url ≠ "") :
    validateServerName servers name = .ok () := by
  unfold validateServerName
  rw [hl]
  simp only []
  rw [if_neg hu]

lemma makeRequest_of_ok0 (m : Nat) (oracle : Nat → Except JSError Response)
    (r : Response) (h : oracle 0 = .ok r) : makeRequest m oracle = ⟨.ok r, 1, 0⟩ :=
  makeRequestGo_of_ok m oracle m 0 r h

/-! ### Claim theorems -/

/-- C10: because the constructor applies its defaults with a truthiness (`||`)
fallback, passing 0 for `maxRetries` or for `timeout` yields the defaults 3 and
30000 respectively (the same as omitting them) — in particular retries cannot
be disabled by configuring `maxRetries = 0`. -/
theorem constructor_zero_options_defaults (servers : List (String × String)) :
    (mkClient servers { timeout := some 0, maxRetries := some 0 }).timeout = 30000 ∧
    (mkClient servers { timeout := some 0, maxRetries := some 0 }).maxRetries = 3 ∧
    (mkClient servers {}).timeout = 30000 ∧
    (mkClient servers {}).maxRetries = 3 :=
  ⟨rfl, rfl, rfl, rfl⟩

/-- C7: on a fresh client instance the JSON-RPC request ids sent across any
sequence of operations are exactly 1, 2, ..., m in order (m = the number of
operations that pass server-name validation; each such operation constructs one
request): the first sent id is 1 and the sent ids are pairwise strictly
increasing, so ids are never reused. -/
theorem requestIds_strictly_increasing (servers : List (String × String))
    (opts : ClientOptions) (ops : List (Op × (Nat → Except JSError Response))) :
    runOps (mkClient servers opts) ops = List.range' 1 (countValid servers ops) ∧
    (runOps (mkClient servers opts) ops).Pairwise (· < ·) := by
  have h := runOps_eq ops (mkClient servers opts)
  constructor
  · simpa [mkClient] using h
  · rw [h]
    simpa [mkClient] using List.pairwise_lt_range' 1 (countValid servers ops)

/-- C4: chunking a string of length n with the default chunk size 50 delivers
exactly ceil(n/50) chunks; their concatenation in delivery order restores the
original string (so every character appears in exactly one chunk, chunks are
contiguous and left-to-right); every chunk but the last has length exactly 50;
every chunk is nonempty and at most 50 long; the empty string yields zero
chunks. -/
theorem streamText_chunking (s : String) :
    (streamText s).length = (s.length + 49) / 50 ∧
    String.join (streamText s) = s ∧
    (∀ i, i + 1 < (streamText s).length →
      ((streamText s).map String.length).getD i 0 = 50) ∧
    (∀ c ∈ streamText s, c ≠ "" ∧ c.length ≤ 50) ∧
    streamText "" = [] := by
  refine ⟨?_, streamText_join s, ?_, ?_, rfl⟩
  · unfold streamText
    rw [List.length_map, chunkListGo_length 50 (by omega) _ _ (le_refl _)]
    have hlen : s.toList.length = s.length := rfl
    rw [show s.toList.length + 50 - 1 = s.length + 49 by omega]
  · intro i hi
    unfold streamText at hi ⊢
    rw [List.map_map]
    have hmap : (String.length ∘ String.mk) = List.length := rfl
    rw [hmap]
    rw [List.length_map] at hi
    exact chunkListGo_lens 50 (by omega) _ _ (le_refl _) i hi
  · intro c hc
    unfold streamText at hc
    rw [List.mem_map] at hc
    obtain ⟨l, hl, rfl⟩ := hc
    obtain ⟨h1, h2⟩ := chunkListGo_mem 50 (by omega) _ _ (le_refl _) l hl
    refine ⟨?_, h2⟩
    intro h0
    apply h1
    have : (String.mk l).toList = ("" : String).toList := by rw [h0]
    simpa using this

/-- C4 witness: a 120-character string yields 3 chunks, and the non-final chunk
at index 1 has length exactly 50. -/
theorem streamText_chunking_witness :
    ((streamText (String.mk (List.replicate 120 'a'))).map String.length).getD 1 0 = 50 ∧
    (streamText (String.mk (List.replicate 120 'a'))).length = 3 :=
  ⟨(streamText_chunking (String.mk (List.replicate 120 'a'))).2.2.1 1 (by decide),
   by decide⟩

/-- C2: if the transport throws a retryable (transient) error on exactly the
first k attempts and resolves on attempt k, with k < maxRetries, then
`makeRequest` succeeds after k+1 fetch attempts with total backoff delay
`sum of 2^i seconds for i < k` (in milliseconds: `2^i * 1000`); and if every
attempt up to index maxRetries throws a retryable error, it fails after exactly
1 + maxRetries attempts (maxRetries retries), propagating the last thrown
error, with total backoff delay `sum of 2^i seconds for i < maxRetries`. -/
theorem makeRequest_retry_backoff :
    (∀ (maxRetries k : Nat) (oracle : Nat → Except JSError Response)
        (e : Nat → JSError) (r : Response),
      k < maxRetries →
      (∀ i, i < k → oracle i = .error (e i) ∧ isRetryableError (e i) = true) →
      oracle k = .ok r →
      makeRequest maxRetries oracle =
        ⟨.ok r, k + 1, ∑ i in Finset.range k, 2 ^ i * 1000⟩) ∧
    (∀ (maxRetries : Nat) (oracle : Nat → Except JSError Response) (e : Nat → JSError),
      (∀ i, i ≤ maxRetries → oracle i = .error (e i) ∧ isRetryableError (e i) = true) →
      makeRequest maxRetries oracle =
        ⟨.error (e maxRetries), maxRetries + 1,
          ∑ i in Finset.range maxRetries, 2 ^ i * 1000⟩) := by
  constructor
  · intro m k oracle e r hk hfail hsucc
    unfold makeRequest
    have h := makeRequestGo_succeeds m oracle e r k m 0 (by omega) (by omega)
      (by intro i hi; simpa using hfail i hi) (by simpa using hsucc)
    simpa using h
  · intro m oracle e hfail
    unfold makeRequest
    have h := makeRequestGo_exhausts m oracle e hfail m 0 (by omega) (by omega)
    simpa using h

/-- C2 witness: with maxRetries = 3, two timeouts then success give 3 attempts
and 3000ms total backoff (1s + 2s); four straight connection resets give
4 attempts (1 + 3 retries) and 7000ms total backoff (1s + 2s + 4s). -/
theorem makeRequest_retry_backoff_witness :
    makeRequest 3
        (fun i => if i < 2 then .error { code := "ETIMEDOUT" } else .ok { status := 200 }) =
      ⟨.ok { status := 200 }, 3, 3000⟩ ∧
    makeRequest 3 (fun _ => .error { code := "ECONNRESET" }) =
      ⟨.error { code := "ECONNRESET" }, 4, 7000⟩ := by
  constructor
  · have hret : isRetryableError { code := "ETIMEDOUT" } = true := by decide
    have h := makeRequest_retry_backoff.1 3 2
      (fun i => if i < 2 then .error { code := "ETIMEDOUT" } else .ok { status := 200 })
      (fun _ => { code := "ETIMEDOUT" }) { status := 200 }
      (by omega) (fun i hi => ⟨if_pos hi, hret⟩) rfl
    rw [h]
    norm_num [Finset.sum_range_succ]
  · have hret : isRetryableError { code := "ECONNRESET" } = true := by decide
    have h := makeRequest_retry_backoff.2 3 (fun _ => .error { code := "ECONNRESET" })
      (fun _ => { code := "ECONNRESET" }) (fun i _ => ⟨rfl, hret⟩)
    rw [h]
    norm_num [Finset.sum_range_succ]

/-- C3 counterexample: the payload with top-level `text` field `""` *has* a
top-level text field, yet the normalizer does not stream that (empty) string —
which would deliver zero chunks — because `result.text` is falsy for the empty
string; it falls through to the fallback and streams (without throwing) the
pretty-printed JSON serialization of the whole payload. -/
theorem processToolResponse_empty_text_cex :
    (processToolResponse (JSON.obj [("text", JSON.str "")])).1.map chunkText =
      ["\x7b\n  \"text\": \"\"\n\x7d"] ∧
    (processToolResponse (JSON.obj [("text", JSON.str "")])).2 = none ∧
    streamText "" = [] ∧
    (processToolResponse (JSON.obj [("text", JSON.str "")])).1.map chunkText ≠
      streamText "" := by
  decide

/-- C3 (amended): first-match shape selection of the normalizer, for non-null
payloads: (1) if the payload's `content` field is an array whose items are
well-formed (non-null, text fields strings), the run completes and the streamed
output concatenates to the concatenation of the text fields of exactly the
string-typed-"text" items (others silently skipped); (2) else if the payload
has a *non-empty string* top-level `text` field, exactly that string is
streamed; (3) else — `text` absent or falsy, the empty string included — the
pretty-printed JSON serialization of the whole payload is streamed; and (4) a
`null` payload delivers nothing and throws the TypeError for reading `content`
off `null`. -/
theorem processToolResponse_shape_selection (p : JSON) :
    (∀ items, contentItems p = some items → (∀ it ∈ items, itemWF it = true) →
      (processToolResponse p).2 = none ∧
      String.join ((processToolResponse p).1.map chunkText) =
        String.join (items.map itemTextStr)) ∧
    (∀ t, contentItems p = none → p.getField "text" = some (.str t) → t ≠ "" →
      processToolResponse p = ((streamText t).map JSON.str, none)) ∧
    (p.isNull = false → contentItems p = none →
      jsTruthyOpt (p.getField "text") = false →
      processToolResponse p = ((streamText (stringify2 p)).map JSON.str, none)) ∧
    (p = JSON.null →
      processToolResponse p = ([], some (typeErrorNullMsg "content"))) := by
  refine ⟨?_, ?_, ?_, ?_⟩
  · intro items hc hwf
    rw [processToolResponse_of_content p items hc, runItems_wf items hwf]
    exact ⟨rfl, joinStr_per_item items⟩
  · intro t hc ht hne
    cases p with
    | null => simp [JSON.getField] at ht
    | str s => simp [JSON.getField] at ht
    | num n => simp [JSON.getField] at ht
    | bool b => simp [JSON.getField] at ht
    | arr xs => simp [JSON.getField] at ht
    | obj fs =>
      simp only [processToolResponse]
      rw [hc, ht]
      simp only []
      rw [if_pos (by simp [JSON.truthy, hne])]
      simp [streamJSRun]
  · intro hnn hc hf
    cases p with
    | null => simp [JSON.isNull] at hnn
    | str s => rfl
    | num n => rfl
    | bool b => rfl
    | arr xs => rfl
    | obj fs =>
      simp only [processToolResponse]
      rw [hc]
      cases hgf : JSON.getField (JSON.obj fs) "text" with
      | none => rfl
      | some v =>
        rw [hgf] at hf
        simp only [jsTruthyOpt] at hf
        simp only []
        rw [if_neg (by simp [hf])]
  · intro hp
    subst hp
    rfl

/-- C3 witness: the spec's three examples plus the null TypeError: a content
array with two text items and an image item streams exactly "AB"; payload with
text "hello" streams "hello"; payload with neither streams its pretty-printed
JSON form; the null payload throws before delivering anything. -/
theorem processToolResponse_shape_selection_witness :
    String.join ((processToolResponse (JSON.obj [("content", JSON.arr
      [JSON.obj [("type", JSON.str "text"), ("text", JSON.str "A")],
       JSON.obj [("type", JSON.str "image"), ("data", JSON.str "x")],
       JSON.obj [("type", JSON.str "text"), ("text", JSON.str "B")]])])).1.map
        chunkText) = "AB" ∧
    processToolResponse (JSON.obj [("text", JSON.str "hello")]) =
      ((streamText "hello").map JSON.str, none) ∧
    processToolResponse (JSON.obj [("foo", JSON.num 1)]) =
      ((streamText (stringify2 (JSON.obj [("foo", JSON.num 1)]))).map JSON.str, none) ∧
    processToolResponse JSON.null = ([], some (typeErrorNullMsg "content")) := by
  refine ⟨?_, ?_, ?_, ?_⟩
  · have h := ((processToolResponse_shape_selection (JSON.obj [("content", JSON.arr
      [JSON.obj [("type", JSON.str "text"), ("text", JSON.str "A")],
       JSON.obj [("type", JSON.str "image"), ("data", JSON.str "x")],
       JSON.obj [("type", JSON.str "text"), ("text", JSON.str "B")]])])).1 _ rfl
        (by decide)).2
    rw [h]
    decide
  · exact (processToolResponse_shape_selection
      (JSON.obj [("text", JSON.str "hello")])).2.1 "hello" rfl rfl (by decide)
  · exact (processToolResponse_shape_selection
      (JSON.obj [("foo", JSON.num 1)])).2.2.1 rfl rfl rfl
  · exact (processToolResponse_shape_selection JSON.null).2.2.2 rfl

/-- C5 counterexample: a content array of two 60-character text items is NOT
chunked as the 120-character concatenation (which would give lengths 50, 50,
20): each item is streamed by its own `streamText` call, so the delivered chunk
lengths are 50, 10, 50, 10. -/
theorem processToolResponse_item_boundaries_cex :
    ((processToolResponse (JSON.obj [("content", JSON.arr
      [JSON.obj [("type", JSON.str "text"),
                 ("text", JSON.str (String.mk (List.replicate 60 'a')))],
       JSON.obj [("type", JSON.str "text"),
                 ("text", JSON.str (String.mk (List.replicate 60 'b')))]])])).1.map
        fun c => (chunkText c).length) = [50, 10, 50, 10] ∧
    (streamText (String.mk (List.replicate 60 'a') ++
        String.mk (List.replicate 60 'b'))).map String.length = [50, 50, 20] ∧
    (processToolResponse (JSON.obj [("content", JSON.arr
      [JSON.obj [("type", JSON.str "text"),
                 ("text", JSON.str (String.mk (List.replicate 60 'a')))],
       JSON.obj [("type", JSON.str "text"),
                 ("text", JSON.str (String.mk (List.replicate 60 'b')))]])])).1.map
        chunkText ≠
      streamText (String.mk (List.replicate 60 'a') ++
        String.mk (List.replicate 60 'b')) := by
  decide

/-- C5 (amended): for a payload whose `content` field is an array of well-formed
items (non-null, text fields strings), the run completes and the delivered
chunks are those of each item's text streamed *independently* (each text item
split into its own 50-character slices, boundaries restarting at every item),
concatenated in item order — not the 50-character slices of the concatenated
string.  (A null item instead throws a TypeError at `item.type`, aborting the
loop and keeping the chunks already delivered.) -/
theorem processToolResponse_per_item_chunking (p : JSON) (items : List JSON)
    (hc : contentItems p = some items) (hwf : ∀ it ∈ items, itemWF it = true) :
    processToolResponse p =
      ((items.map fun it => (streamText (itemTextStr it)).map JSON.str).flatten,
        none) := by
  rw [processToolResponse_of_content p items hc, runItems_wf items hwf]

/-- C5 witness: the per-item chunking equation at a concrete two-item payload. -/
theorem processToolResponse_per_item_chunking_witness :
    processToolResponse (JSON.obj [("content", JSON.arr
      [JSON.obj [("type", JSON.str "text"), ("text", JSON.str "hi")],
       JSON.obj [("type", JSON.str "text"), ("text", JSON.str "ho")]])]) =
      ((([JSON.obj [("type", JSON.str "text"), ("text", JSON.str "hi")],
          JSON.obj [("type", JSON.str "text"), ("text", JSON.str "ho")]].map
        fun it => (streamText (itemTextStr it)).map JSON.str)).flatten, none) :=
  processToolResponse_per_item_chunking _ _ rfl (by decide)

/-- C6 counterexample: a server registered with the empty-string URL *is* in the
registry mapping, yet validation fails with the not-found error, because the
check `!this.servers[serverName]` tests truthiness of the URL, and `""` is
falsy. -/
theorem validateServerName_empty_url_cex :
    lookupServer [("s", "")] "s" = some "" ∧
    validateServerName [("s", "")] "s" =
      .error "Server \x27s\x27 not found. Available servers: s" :=
  ⟨by decide, by rfl⟩

/-- C6 (amended): for every server name registered with a *non-empty* URL,
validation succeeds; for every name not registered at all, validation — and
both operations — fail with the error message enumerating the currently known
server names, with zero fetch attempts (the failure precedes any network I/O)
and zero chunks delivered. -/
theorem validateServerName_contract :
    (∀ (servers : List (String × String)) (name url : String),
      lookupServer servers name = some url → url ≠ "" →
      validateServerName servers name = .ok ()) ∧
    (∀ (c : Client) (name tool : String) (args : JSON)
        (oracle : Nat → Except JSError Response),
      lookupServer c.servers name = none →
      validateServerName c.servers name = .error (serverNotFoundMsg c.servers name) ∧
      (listTools c name oracle).1.result = .error (serverNotFoundMsg c.servers name) ∧
      (listTools c name oracle).1.fetchCalls = 0 ∧
      (callToolStream c name tool args oracle).1.result =
        .error (serverNotFoundMsg c.servers name) ∧
      (callToolStream c name tool args oracle).1.fetchCalls = 0 ∧
      (callToolStream c name tool args oracle).1.chunks = []) := by
  constructor
  · intro servers name url hl hu
    exact validate_ok_of_lookup servers name url hl hu
  · intro c name tool args oracle hl
    have hv : validateServerName c.servers name =
        .error (serverNotFoundMsg c.servers name) := by
      unfold validateServerName
      rw [hl]
    refine ⟨hv, ?_, ?_, ?_, ?_, ?_⟩ <;> simp [listTools, callToolStream, hv]

/-- C6 witness: a registered name validates; an unknown name fails before any
fetch with the message listing the known names. -/
theorem validateServerName_contract_witness :
    validateServerName [("a", "u1"), ("b", "u2")] "a" = .ok () ∧
    (listTools (mkClient [("a", "u1"), ("b", "u2")]) "zzz"
        (fun _ => .ok { status := 200 })).1.fetchCalls = 0 ∧
    (listTools (mkClient [("a", "u1"), ("b", "u2")]) "zzz"
        (fun _ => .ok { status := 200 })).1.result =
      .error "Server \x27zzz\x27 not found. Available servers: a, b" := by
  refine ⟨validateServerName_contract.1 [("a", "u1"), ("b", "u2")] "a" "u1" rfl (by decide),
    (validateServerName_contract.2 (mkClient [("a", "u1"), ("b", "u2")]) "zzz" "t"
      JSON.null (fun _ => .ok { status := 200 }) rfl).2.2.1, ?_⟩
  rw [(validateServerName_contract.2 (mkClient [("a", "u1"), ("b", "u2")]) "zzz" "t"
      JSON.null (fun _ => .ok { status := 200 }) rfl).2.1]
  rfl

/-- C9: chunk delivery is atomic with respect to the pre-normalizer stages: a
failure at validation, at transport (a thrown fetch error, a non-2xx status, or
a missing body), at JSON parsing (unparseable or `null` body), at the
error-envelope check, or at the missing-`result`-field TypeError invokes the
`onData` callback zero times; and conversely, whenever any chunk is delivered,
the complete payload had been received, parsed, found non-null and free of an
error envelope, and carried a `result` field — the chunks are exactly those of
`processToolResponse` on that payload.  (Once the normalizer itself is running,
a thrown TypeError can leave earlier chunks delivered; that stage is not one of
the claim's, and the spec itself allows partial delivery after chunking
begins.) -/
theorem callToolStream_atomic :
    (∀ (c : Client) (n t : String) (args : JSON)
        (oracle : Nat → Except JSError Response) (msg : String),
      validateServerName c.servers n = .error msg →
      (callToolStream c n t args oracle).1.chunks = [] ∧
      (callToolStream c n t args oracle).1.result = .error msg) ∧
    (∀ (c : Client) (n t : String) (args : JSON)
        (oracle : Nat → Except JSError Response) (e : JSError),
      (makeRequest c.maxRetries oracle).result = .error e →
      (callToolStream c n t args oracle).1.chunks = []) ∧
    (∀ (c : Client) (n t : String) (args : JSON)
        (oracle : Nat → Except JSError Response) (r : Response),
      (makeRequest c.maxRetries oracle).result = .ok r → r.ok = false →
      (callToolStream c n t args oracle).1.chunks = []) ∧
    (∀ (c : Client) (n t : String) (args : JSON)
        (oracle : Nat → Except JSError Response) (r : Response),
      (makeRequest c.maxRetries oracle).result = .ok r → r.body = none →
      (callToolStream c n t args oracle).1.chunks = []) ∧
    (∀ (c : Client) (n t : String) (args : JSON)
        (oracle : Nat → Except JSError Response) (r : Response),
      (makeRequest c.maxRetries oracle).result = .ok r → r.bodyJson = none →
      (callToolStream c n t args oracle).1.chunks = []) ∧
    (∀ (c : Client) (n t : String) (args : JSON)
        (oracle : Nat → Except JSError Response) (r : Response) (j : JSON),
      (makeRequest c.maxRetries oracle).result = .ok r → r.bodyJson = some j →
      j.isNull = true →
      (callToolStream c n t args oracle).1.chunks = []) ∧
    (∀ (c : Client) (n t : String) (args : JSON)
        (oracle : Nat → Except JSError Response) (r : Response) (j : JSON),
      (makeRequest c.maxRetries oracle).result = .ok r → r.bodyJson = some j →
      jsTruthyOpt (j.getField "error") = true →
      (callToolStream c n t args oracle).1.chunks = []) ∧
    (∀ (c : Client) (n t : String) (args : JSON)
        (oracle : Nat → Except JSError Response) (r : Response) (j : JSON),
      (makeRequest c.maxRetries oracle).result = .ok r → r.bodyJson = some j →
      j.getField "result" = none →
      (callToolStream c n t args oracle).1.chunks = []) ∧
    (∀ (c : Client) (n t : String) (args : JSON)
        (oracle : Nat → Except JSError Response),
      (callToolStream c n t args oracle).1.chunks ≠ [] →
      ∃ (r : Response) (j payload : JSON),
        (makeRequest c.maxRetries oracle).result = .ok r ∧ r.ok = true ∧
        (∃ buf, r.body = some buf) ∧ r.bodyJson = some j ∧ j.isNull = false ∧
        jsTruthyOpt (j.getField "error") = false ∧
        j.getField "result" = some payload ∧
        (callToolStream c n t args oracle).1.chunks =
          (processToolResponse payload).1) := by
  refine ⟨?_, ?_, ?_, ?_, ?_, ?_, ?_, ?_, ?_⟩
  · intro c n t args oracle msg hv
    constructor <;> simp [callToolStream, hv]
  · intro c n t args oracle e hmr
    cases hv : validateServerName c.servers n with
    | error msg => simp [callToolStream, hv]
    | ok u =>
      cases u
      simp [callToolStream, hv, callToolOutcome, hmr]
  · intro c n t args oracle r hmr hok
    cases hv : validateServerName c.servers n with
    | error msg => simp [callToolStream, hv]
    | ok u =>
      cases u
      simp [callToolStream, hv, callToolOutcome, hmr, hok]
  · intro c n t args oracle r hmr hb
    cases hv : validateServerName c.servers n with
    | error msg => simp [callToolStream, hv]
    | ok u =>
      cases u
      cases hok : r.ok <;>
        simp [callToolStream, hv, callToolOutcome, hmr, hok, hb]
  · intro c n t args oracle r hmr hbj
    cases hv : validateServerName c.servers n with
    | error msg => simp [callToolStream, hv]
    | ok u =>
      cases u
      cases hok : r.ok <;> cases hb : r.body <;>
        simp [callToolStream, hv, callToolOutcome, hmr, hok, hb, hbj]
  · intro c n t args oracle r j hmr hbj hnull
    cases hv : validateServerName c.servers n with
    | error msg => simp [callToolStream, hv]
    | ok u =>
      cases u
      cases hok : r.ok <;> cases hb : r.body <;>
        simp [callToolStream, hv, callToolOutcome, hmr, hok, hb, hbj, hnull]
  · intro c n t args oracle r j hmr hbj henv
    cases hv : validateServerName c.servers n with
    | error msg => simp [callToolStream, hv]
    | ok u =>
      cases u
      cases hok : r.ok <;> cases hb : r.body <;> cases hnull : j.isNull <;>
        simp [callToolStream, hv, callToolOutcome, hmr, hok, hb, hbj, hnull, henv]
  · intro c n t args oracle r j hmr hbj hres
    cases hv : validateServerName c.servers n with
    | error msg => simp [callToolStream, hv]
    | ok u =>
      cases u
      cases hok : r.ok <;> cases hb : r.body <;> cases hnull : j.isNull <;>
        cases henv : jsTruthyOpt (j.getField "error") <;>
        simp [callToolStream, hv, callToolOutcome, hmr, hok, hb, hbj, hnull, henv, hres]
  · intro c n t args oracle h
    cases hv : validateServerName c.servers n with
    | error msg => simp [callToolStream, hv] at h
    | ok u =>
      cases u
      rw [callToolStream] at h ⊢
      simp only [hv] at h ⊢
      cases hmr : (makeRequest c.maxRetries oracle).result with
      | error e => simp [callToolOutcome, hmr] at h
      | ok r =>
        cases hok : r.ok with
        | false => simp [callToolOutcome, hmr, hok] at h
        | true =>
          cases hb : r.body with
          | none => simp [callToolOutcome, hmr, hok, hb] at h
          | some buf =>
            cases hbj : r.bodyJson with
            | none => simp [callToolOutcome, hmr, hok, hb, hbj] at h
            | some j =>
              cases hnull : j.isNull with
              | true => simp [callToolOutcome, hmr, hok, hb, hbj, hnull] at h
              | false =>
                cases henv : jsTruthyOpt (j.getField "error") with
                | true =>
                  simp [callToolOutcome, hmr, hok, hb, hbj, hnull, henv] at h
                | false =>
                  cases hres : j.getField "result" with
                  | none =>
                    simp [callToolOutcome, hmr, hok, hb, hbj, hnull, henv, hres] at h
                  | some payload =>
                    refine ⟨r, j, payload, rfl, hok, ⟨buf, hb⟩, hbj, hnull, henv,
                      hres, ?_⟩
                    rcases hrun : processToolResponse payload with ⟨chs, err⟩
                    cases err <;>
                      simp [callToolOutcome, hmr, hok, hb, hbj, hnull, henv, hres, hrun]

/-- C9 witness: a validation failure (unknown server) delivers zero chunks and
surfaces the not-found error. -/
theorem callToolStream_atomic_witness :
    (callToolStream (mkClient []) "s" "t" JSON.null
        (fun _ => .ok { status := 200 })).1.chunks = [] :=
  (callToolStream_atomic.1 (mkClient []) "s" "t" JSON.null
    (fun _ => .ok { status := 200 })
    "Server \x27s\x27 not found. Available servers: " rfl).1

/-- C1: the claim says a transient failure includes "an HTTP response with
status >= 500" and that such a response is retried.  The code's own classifier
`isRetryableError` does treat an error carrying a response with status >= 500 as
retryable, but `makeRequest` consults it only for errors *thrown* by `fetch`,
and (per node-fetch) an HTTP 500 response is *resolved*, not thrown.  Evaluated
at a registry `{aws -> u}` with default options (maxRetries = 3) and a transport
whose every attempt yields an HTTP 500 response: exactly ONE fetch attempt is
made, no retry happens, and `listTools` fails immediately with the HTTP error —
contradicting the claimed retry-up-to-3 behaviour for 5xx. -/
theorem listTools_http500_not_retried :
    (listTools (mkClient [("aws", "u")]) "aws"
      (fun _ => .ok { status := 500, statusText := "Internal Server Error",
                      body := some "boom" })).1.fetchCalls = 1 ∧
    errStrOf (listTools (mkClient [("aws", "u")]) "aws"
      (fun _ => .ok { status := 500, statusText := "Internal Server Error",
                      body := some "boom" })).1.result =
      "Failed to fetch tools from aws (u): HTTP 500: Internal Server Error. Body: boom" ∧
    isRetryableError { responseStatus := some 500 } = true ∧
    (mkClient [("aws", "u")]).maxRetries = 3 := by
  decide

/-- C8: non-transient failures are never retried (exactly one fetch attempt) and
surface the documented diagnostics.  For both operations: a resolved non-2xx
response below 500 (e.g. 404) fails immediately with a message carrying the
status code, status text and body; a response body that is not valid JSON fails
immediately; a JSON-RPC error envelope in a successful HTTP response fails
immediately with a message carrying the upstream code and message. -/
theorem nonTransient_no_retry :
    (∀ (c : Client) (n url : String) (oracle : Nat → Except JSError Response)
        (r : Response),
      lookupServer c.servers n = some url → url ≠ "" → oracle 0 = .ok r →
      r.ok = false → r.status < 500 →
      (listTools c n oracle).1.fetchCalls = 1 ∧
      (listTools c n oracle).1.result = .error (listToolsWrap n url (httpErrMsg r))) ∧
    (∀ (c : Client) (n url : String) (oracle : Nat → Except JSError Response)
        (r : Response),
      lookupServer c.servers n = some url → url ≠ "" → oracle 0 = .ok r →
      r.ok = true → r.bodyJson = none →
      (listTools c n oracle).1.fetchCalls = 1 ∧
      isErrB (listTools c n oracle).1.result = true) ∧
    (∀ (c : Client) (n url : String) (oracle : Nat → Except JSError Response)
        (r : Response) (j errObj : JSON) (code : Int) (msg : String),
      lookupServer c.servers n = some url → url ≠ "" → oracle 0 = .ok r →
      r.ok = true → r.bodyJson = some j →
      j.getField "error" = some errObj → errObj.truthy = true →
      errObj.getField "code" = some (.num code) →
      errObj.getField "message" = some (.str msg) →
      (listTools c n oracle).1.fetchCalls = 1 ∧
      (listTools c n oracle).1.result =
        .error (listToolsWrap n url
          ("JSON-RPC Error (" ++ toString code ++ "): " ++ msg))) ∧
    (∀ (c : Client) (n tool url : String) (args : JSON)
        (oracle : Nat → Except JSError Response) (r : Response),
      lookupServer c.servers n = some url → url ≠ "" → oracle 0 = .ok r →
      r.ok = false → r.status < 500 →
      (callToolStream c n tool args oracle).1.fetchCalls = 1 ∧
      (callToolStream c n tool args oracle).1.result =
        .error (callToolWrap tool n (httpErrMsg r)) ∧
      (callToolStream c n tool args oracle).1.chunks = []) ∧
    (∀ (c : Client) (n tool url : String) (args : JSON)
        (oracle : Nat → Except JSError Response) (r : Response) (buf : String),
      lookupServer c.servers n = some url → url ≠ "" → oracle 0 = .ok r →
      r.ok = true → r.body = some buf → r.bodyJson = none →
      (callToolStream c n tool args oracle).1.fetchCalls = 1 ∧
      (callToolStream c n tool args oracle).1.result =
        .error (callToolWrap tool n (invalidJsonMsg buf)) ∧
      (callToolStream c n tool args oracle).1.chunks = []) ∧
    (∀ (c : Client) (n tool url : String) (args : JSON)
        (oracle : Nat → Except JSError Response) (r : Response) (buf : String)
        (j errObj : JSON) (code : Int) (msg : String),
      lookupServer c.servers n = some url → url ≠ "" → oracle 0 = .ok r →
      r.ok = true → r.body = some buf → r.bodyJson = some j →
      j.getField "error" = some errObj → errObj.truthy = true →
      errObj.getField "code" = some (.num code) →
      errObj.getField "message" = some (.str msg) →
      (callToolStream c n tool args oracle).1.fetchCalls = 1 ∧
      (callToolStream c n tool args oracle).1.result =
        .error (callToolWrap tool n
          ("Tool Error (" ++ toString code ++ "): " ++ msg)) ∧
      (callToolStream c n tool args oracle).1.chunks = []) := by
  refine ⟨?_, ?_, ?_, ?_, ?_, ?_⟩
  · intro c n url oracle r hl hu h0 hok _
    have hv := validate_ok_of_lookup c.servers n url hl hu
    have hmr := makeRequest_of_ok0 c.maxRetries oracle r h0
    constructor
    · simp [listTools, hv, hmr]
    · simp [listTools, hv, hmr, listToolsOutcome, hok, hl]
  · intro c n url oracle r hl hu h0 hok hbj
    have hv := validate_ok_of_lookup c.servers n url hl hu
    have hmr := makeRequest_of_ok0 c.maxRetries oracle r h0
    constructor
    · simp [listTools, hv, hmr]
    · simp [listTools, hv, hmr, listToolsOutcome, hok, hbj, hl, isErrB]
  · intro c n url oracle r j errObj code msg hl hu h0 hok hbj herr htr hcode hmsg
    have hv := validate_ok_of_lookup c.servers n url hl hu
    have hmr := makeRequest_of_ok0 c.maxRetries oracle r h0
    have hnn := isNull_false_of_getField j "error" errObj herr
    constructor
    · simp [listTools, hv, hmr]
    · simp [listTools, hv, hmr, listToolsOutcome, hok, hbj, hl, hnn, herr, jsTruthyOpt,
        htr, rpcErrMsg, fieldChainDisplay, hcode, hmsg, displayOpt, JSON.display]
  · intro c n tool url args oracle r hl hu h0 hok _
    have hv := validate_ok_of_lookup c.servers n url hl hu
    have hmr := makeRequest_of_ok0 c.maxRetries oracle r h0
    refine ⟨?_, ?_, ?_⟩ <;>
      simp [callToolStream, hv, hmr, callToolOutcome, hok]
  · intro c n tool url args oracle r buf hl hu h0 hok hb hbj
    have hv := validate_ok_of_lookup c.servers n url hl hu
    have hmr := makeRequest_of_ok0 c.maxRetries oracle r h0
    refine ⟨?_, ?_, ?_⟩ <;>
      simp [callToolStream, hv, hmr, callToolOutcome, hok, hb, hbj]
  · intro c n tool url args oracle r buf j errObj code msg hl hu h0 hok hb hbj herr htr
      hcode hmsg
    have hv := validate_ok_of_lookup c.servers n url hl hu
    have hmr := makeRequest_of_ok0 c.maxRetries oracle r h0
    have hnn := isNull_false_of_getField j "error" errObj herr
    refine ⟨?_, ?_, ?_⟩ <;>
      simp [callToolStream, hv, hmr, callToolOutcome, hok, hb, hbj, hnn, herr,
        jsTruthyOpt, htr, toolErrMsg, fieldChainDisplay, hcode, hmsg, displayOpt,
        JSON.display]

/-- C8 witness: a 404 response to listTools makes exactly one fetch attempt and
surfaces the HTTP diagnostics; a JSON-RPC -32601 error envelope to
callToolStream makes exactly one fetch attempt, surfaces code -32601 with its
message, and delivers no chunks. -/
theorem nonTransient_no_retry_witness :
    (listTools (mkClient [("s", "u")]) "s"
        (fun _ => .ok { status := 404, statusText := "Not Found",
                        body := some "nf" })).1.fetchCalls = 1 ∧
    (listTools (mkClient [("s", "u")]) "s"
        (fun _ => .ok { status := 404, statusText := "Not Found",
                        body := some "nf" })).1.result =
      .error (listToolsWrap "s" "u"
        (httpErrMsg { status := 404, statusText := "Not Found", body := some "nf" })) ∧
    (callToolStream (mkClient [("s", "u")]) "s" "t" JSON.null
        (fun _ => .ok { status := 200, statusText := "OK", body := some "env",
                        bodyJson := some (JSON.obj [("error", JSON.obj
                          [("code", JSON.num (-32601)),
                           ("message", JSON.str "Method not found")])]) })).1.result =
      .error (callToolWrap "t" "s" ("Tool Error (" ++ toString (-32601 : Int) ++
        "): " ++ "Method not found")) ∧
    (callToolStream (mkClient [("s", "u")]) "s" "t" JSON.null
        (fun _ => .ok { status := 200, statusText := "OK", body := some "env",
                        bodyJson := some (JSON.obj [("error", JSON.obj
                          [("code", JSON.num (-32601)),
                           ("message", JSON.str "Method not found")])]) })).1.chunks = [] := by
  have h1 := nonTransient_no_retry.1 (mkClient [("s", "u")]) "s" "u"
    (fun _ => .ok { status := 404, statusText := "Not Found", body := some "nf" })
    { status := 404, statusText := "Not Found", body := some "nf" }
    rfl (by decide) rfl (by decide) (by decide)
  have h2 := nonTransient_no_retry.2.2.2.2.2 (mkClient [("s", "u")]) "s" "t" "u"
    JSON.null
    (fun _ => .ok { status := 200, statusText := "OK", body := some "env",
                    bodyJson := some (JSON.obj [("error", JSON.obj
                      [("code", JSON.num (-32601)),
                       ("message", JSON.str "Method not found")])]) })
    { status := 200, statusText := "OK", body := some "env",
      bodyJson := some (JSON.obj [("error", JSON.obj
        [("code", JSON.num (-32601)), ("message", JSON.str "Method not found")])]) }
    "env"
    (JSON.obj [("error", JSON.obj
      [("code", JSON.num (-32601)), ("message", JSON.str "Method not found")])])
    (JSON.obj [("code", JSON.num (-32601)), ("message", JSON.str "Method not found")])
    (-32601) "Method not found"
    rfl (by decide) rfl (by decide) rfl rfl rfl (by decide) rfl rfl
  exact ⟨h1.1, h1.2, h2.2.1, h2.2.2⟩
